import Mathlib

/-!
Verification of the smof sequence classifier and pattern search engine
(`src/smof.py`) against its natural-language specification.

Sequences are modelled as `List Char`.  Python dictionaries whose lookups
may raise `KeyError` are modelled as association lists with a partial
increment operation; fallible code returns `Except String`.
-/

namespace Smof

/-- `Alphabet.PROT` from src/smof.py:100. -/
def PROT : List Char := "ACDEFGHIKLMNPQRSTUVWYX*".toList

/-- `Alphabet.PROT_AMB` from src/smof.py:102. -/
def PROT_AMB : List Char := "BZJ".toList

/-- `Alphabet.PROT_EXC` from src/smof.py:103 (residues unique to proteins). -/
def PROT_EXC : List Char := "EFILQPXJZ*".toList

/-- `Alphabet.DNA` from src/smof.py:104. -/
def DNA : List Char := "ACGTN".toList

/-- `Alphabet.RNA` from src/smof.py:107. -/
def RNA : List Char := "ACGUN".toList

/-- `Alphabet.DNA_AMB` from src/smof.py:106 (IUPAC ambiguity codes). -/
def DNA_AMB : List Char := "RYSWKMDBHV".toList

/-- `Alphabet.GAP` from src/smof.py:110: the characters `.`, `-`, `_`. -/
def GAP : List Char := ".-_".toList

/-- `Alphabet.STOP` from src/smof.py:111: the six stop codons. -/
def STOP : List (List Char) :=
  ["TAG".toList, "TAA".toList, "TGA".toList, "UAG".toList, "UAA".toList, "UGA".toList]

/-- One FASTA record (`FSeq.__init__`, src/smof.py:147): a header plus a
residue string, both case-preserving. -/
structure FSeq where
  header : List Char
  seq : List Char
deriving DecidableEq, Repr

/-- `FSeq.ungap` (src/smof.py:201): removes every `.`, `-`, `_` from the
residue string, in place in Python; modelled as returning the updated record. -/
def FSeq.ungap (s : FSeq) : FSeq :=
  { s with seq := s.seq.filter (fun c => !(GAP.contains c)) }

/-- The character translation underlying `FSeq.revcomp_translator`
(src/smof.py:146): `str.maketrans('acgtACGT', 'tgcaTGCA')`.  Characters
outside the table (such as `U`) are left unchanged by `str.translate`. -/
def revcompChar (c : Char) : Char :=
  if c = 'a' then 't'
  else if c = 'c' then 'g'
  else if c = 'g' then 'c'
  else if c = 't' then 'a'
  else if c = 'A' then 'T'
  else if c = 'C' then 'G'
  else if c = 'G' then 'C'
  else if c = 'T' then 'A'
  else c

/-- `FSeq.getrevcomp` (src/smof.py:229-231): `seq[::-1].translate(revcomp_translator)`. -/
def FSeq.getrevcomp (seq : List Char) : List Char :=
  seq.reverse.map revcompChar

/-- A Python `dict` with `str` keys and `int` counter values, as used by
`FileDescription`: an association list. -/
abbrev Dict : Type := List (String × Nat)

/-- Dictionary lookup (`d[k]` on the right-hand side): `none` models `KeyError`. -/
def dictGet : Dict → String → Option Nat
  | [], _ => none
  | (k', v) :: rest, k => if k' = k then some v else dictGet rest k

/-- `d[k] += n`: fails (models Python's `KeyError`) when `k` is not a key of `d`. -/
def dictIncr : Dict → String → Nat → Option Dict
  | [], _, _ => none
  | (k', v) :: rest, k, n =>
    if k' = k then some ((k', v + n) :: rest)
    else (dictIncr rest k n).map (fun d => (k', v) :: d)

/-- `d[k] += n` wrapped into `Except`, raising the Python `KeyError`. -/
def bump (d : Dict) (k : String) (n : Nat) : Except String Dict :=
  match dictIncr d k n with
  | some d' => Except.ok d'
  | none => Except.error ("KeyError: " ++ k)

/-- The accumulator state of `FileDescription.__init__` (src/smof.py:290-323).
The md5 fingerprint sets `seqs`/`headers` are modelled by the exact byte
content they digest. -/
structure FileDescription where
  seqs : List (List Char)
  headers : List (List Char)
  ntype : Dict
  ncase : Dict
  pfeat : Dict
  nfeat : Dict
  ufeat : Dict
deriving DecidableEq, Repr

/-- The initial counter state from `FileDescription.__init__`
(src/smof.py:290-323); note `ufeat` has key `gapped`, not `ngapped`. -/
def initFD : FileDescription :=
  { seqs := []
    headers := []
    ntype := [("prot", 0), ("dna", 0), ("rna", 0), ("illegal", 0), ("ambiguous", 0)]
    ncase := [("uppercase", 0), ("lowercase", 0), ("mixedcase", 0)]
    pfeat := [("selenocysteine", 0), ("initial-Met", 0), ("internal-stop", 0), ("terminal-stop", 0)]
    nfeat := [("start|coding|stop", 0), ("start|coding", 0), ("start|nonsense|stop", 0),
              ("start|nonsense", 0), ("coding|stop", 0), ("nonsense|stop", 0),
              ("start|n|stop", 0), ("start", 0), ("stop", 0), ("not-CDS", 0)]
    ufeat := [("gapped", 0), ("unknown", 0), ("ambiguous", 0)] }

/-- Python's substring test `sub in s` for strings. -/
def pyIn (sub s : List Char) : Bool :=
  (List.range (s.length + 1)).any (fun i => (s.drop i).take sub.length == sub)

/-- `counter_caser` (src/smof.py:603-613), upper mode: keeps uppercase
letters, uppercases lowercase letters, and drops every character that is
neither (such as `*`), exactly as the two comprehensions filtering on
`k.isupper()` / `k.islower()` do.  The character multiset is modelled by a
list; order is irrelevant to every downstream use. -/
def counterCaser (l : List Char) : List Char :=
  l.filter Char.isUpper ++ (l.filter Char.isLower).map Char.toUpper

/-- `FileDescription._handle_gaps` (src/smof.py:395-400).  When a gap
character occurs it executes `self.ufeat['ngapped'] += 1`, which raises
`KeyError` because the dictionary only has the key `gapped`. -/
def FileDescription.handle_gaps (fd : FileDescription) (counts : List Char) :
    Except String (FileDescription × Bool) :=
  if counts.any (fun c => GAP.contains c) then
    match dictIncr fd.ufeat "ngapped" 1 with
    | some d => Except.ok ({ fd with ufeat := d }, true)
    | none => Except.error "KeyError: ngapped"
  else
    Except.ok (fd, false)

/-- `FileDescription._handle_case` (src/smof.py:402-412). -/
def FileDescription.handle_case (fd : FileDescription) (counts : List Char) :
    Except String (FileDescription × String) :=
  let hasLower := counts.any Char.isLower
  let hasUpper := counts.any Char.isUpper
  let scase := if hasLower && hasUpper then "mixedcase"
               else if hasLower then "lowercase"
               else "uppercase"
  match dictIncr fd.ncase scase 1 with
  | some d => Except.ok ({ fd with ncase := d }, scase)
  | none => Except.error ("KeyError: " ++ scase)

/-- Number of characters of `l` that belong to `cs` — the sum
`sum([counts[x] for x in cs if x in counts])`. -/
def countIn (cs : List Char) (l : List Char) : Nat :=
  (l.filter (fun c => cs.contains c)).length

/-- `FileDescription._handle_type` (src/smof.py:414-440).  The floating
comparison `ratio > 0.8` is modelled exactly over the rationals as
`5 * num > 4 * total`; a zero denominator models `ZeroDivisionError`
(unreachable: an empty counter is caught by the first branch). -/
def FileDescription.handle_type (fd : FileDescription) (counts : List Char) :
    Except String (FileDescription × String) := do
  let stype ←
    if counts.all (fun c => DNA.contains c) then Except.ok "dna"
    else if counts.all (fun c => RNA.contains c) then Except.ok "rna"
    else if counts.any (fun c => PROT_EXC.contains c) then
      if counts.all (fun c => (PROT ++ PROT_AMB).contains c) then Except.ok "prot"
      else Except.ok "illegal"
    else if counts.all (fun c => (PROT ++ PROT_AMB).contains c) then
      if counts.length = 0 then Except.error "ZeroDivisionError"
      else if 5 * countIn "ACGTUN".toList counts > 4 * counts.length then
        if counts.contains 'U' then Except.ok "rna" else Except.ok "dna"
      else Except.ok "ambiguous"
    else Except.ok "illegal"
  match dictIncr fd.ntype stype 1 with
  | some d => Except.ok ({ fd with ntype := d }, stype)
  | none => Except.error ("KeyError: " ++ stype)

/-- `seq.seq[-3:].upper() in Alphabet.STOP` (src/smof.py:364): is the
uppercased final-3-character slice a stop codon?  (Python's negative slice
returns the whole string when it is shorter than 3.) -/
def tstopOf (l : List Char) : Bool :=
  STOP.contains ((l.drop (l.length - 3)).map Char.toUpper)

/-- Fuel-driven worker for `codonsOf`; fuel `l.length` always suffices. -/
def codonsFuel : Nat → List Char → List (List Char)
  | 0, _ => []
  | fuel + 1, l =>
    if 3 < l.length then ((l.take 3).map Char.toUpper) :: codonsFuel fuel (l.drop 3)
    else []

/-- `codons_1 = [seq.seq[i:i+3].upper() for i in range(0, len(seq.seq) - 3, 3)]`
(src/smof.py:366): uppercased non-overlapping 3-mers taken while the start
index is strictly below `len - 3`, i.e. all full codons except the last
complete one.  Empty for sequences of length at most 3. -/
def codonsOf (l : List Char) : List (List Char) :=
  codonsFuel l.length l

/-- The cascade of frame-category rules (src/smof.py:372-393), with
`stop1 = codons_1[-1] in STOP` used by the first four rules and
`tstop = seq[-3:].upper() in STOP` by the later ones, exactly as in the
source. -/
def frameSelect (start1 triple stop1 internal1 tstop : Bool) : String :=
  if start1 && triple && stop1 && !internal1 then "start|coding|stop"
  else if start1 && triple && stop1 && internal1 then "start|nonsense|stop"
  else if start1 && triple && !stop1 && !internal1 then "start|coding"
  else if start1 && triple && !stop1 && internal1 then "start|nonsense"
  else if !start1 && tstop && triple && !internal1 then "coding|stop"
  else if start1 && tstop && !triple then "start|n|stop"
  else if start1 && !tstop then "start"
  else if !start1 && !tstop then "stop"
  else "not-CDS"

/-- The protein feature block of `add_seq` (src/smof.py:351-358).
`counts['*']` is read from the case-folded counter (where `counter_caser`
has dropped `*`), while the initial/terminal residues come from the raw
sequence; indexing an empty sequence models Python's `IndexError`. -/
def FileDescription.featProt (fd : FileDescription) (counts : List Char) (s : FSeq) :
    Except String FileDescription := do
  let u ← bump fd.ufeat "unknown" (counts.contains 'X').toNat
  let u ← bump u "ambiguous" (counts.any (fun c => PROT_AMB.contains c)).toNat
  let p ← bump fd.pfeat "selenocysteine" (counts.contains 'U').toNat
  match s.seq with
  | [] => Except.error "IndexError: string index out of range"
  | c0 :: rest =>
    let p ← bump p "initial-Met" ('M' == c0.toUpper).toNat
    let lastc := (c0 :: rest).getLast (by simp)
    let tstop := lastc == '*'
    let p ← bump p "terminal-stop" tstop.toNat
    let p ← bump p "internal-stop"
      (decide ((counts.count '*' : Int) - (if tstop then 1 else 0) > 0)).toNat
    Except.ok { fd with ufeat := u, pfeat := p }

/-- The nucleotide feature block of `add_seq` (src/smof.py:359-393).
`codons_1[0]` on an empty codon list models Python's `IndexError`
(sequences of length at most 3). -/
def FileDescription.featNuc (fd : FileDescription) (counts : List Char) (s : FSeq) :
    Except String FileDescription := do
  let u ← bump fd.ufeat "unknown" (counts.contains 'N').toNat
  let u ← bump u "ambiguous" (counts.any (fun c => DNA_AMB.contains c)).toNat
  let triple := s.seq.length % 3 == 0
  let tstop := tstopOf s.seq
  match h : codonsOf s.seq with
  | [] => Except.error "IndexError: list index out of range"
  | c0 :: rest =>
    let start1 := c0 == "ATG".toList
    let stop1 := STOP.contains ((c0 :: rest).getLast (by simp))
    let internal1 := (codonsOf s.seq).dropLast.any (fun c => STOP.contains c)
    let n ← bump fd.nfeat (frameSelect start1 triple stop1 internal1 tstop) 1
    Except.ok { fd with ufeat := u, nfeat := n }

/-- `FileDescription.add_seq` (src/smof.py:325-393): classifies one record
and folds it into the accumulator.  The record is returned alongside the
updated state because Python mutates it in place (`seq.ungap()`). -/
def FileDescription.add_seq (fd : FileDescription) (s : FSeq) :
    Except String (FileDescription × FSeq) := do
  -- md5 fingerprint insertion (modelled by content), then counts = Counter(seq.seq)
  let (fd, isGapped) ← FileDescription.handle_gaps
      { fd with seqs := s.seq :: fd.seqs, headers := s.header :: fd.headers } s.seq
  let s := if isGapped then s.ungap else s
  -- counts is recomputed from the ungapped sequence when gapped, and is
  -- Counter(seq.seq) of the unchanged sequence otherwise: `s.seq` either way
  let counts := s.seq
  let (fd, scase) ← fd.handle_case counts
  let counts := if pyIn scase.toList "upper".toList then counts else counterCaser counts
  let (fd, stype) ← fd.handle_type counts
  let fd ←
    if stype = "prot" then fd.featProt counts s
    else if stype = "dna" || stype = "rna" then fd.featNuc counts s
    else Except.ok fd
  Except.ok (fd, s)

instance instDecEqExcept {a : Type} [DecidableEq a] : DecidableEq (Except String a) := fun x y =>
  match x, y with
  | Except.ok u, Except.ok v =>
    if h : u = v then isTrue (by rw [h]) else isFalse (by intro hc; cases hc; exact h rfl)
  | Except.error u, Except.error v =>
    if h : u = v then isTrue (by rw [h]) else isFalse (by intro hc; cases hc; exact h rfl)
  | Except.ok _, Except.error _ => isFalse (by intro hc; cases hc)
  | Except.error _, Except.ok _ => isFalse (by intro hc; cases hc)

/-- One match dictionary `{'pos': (start, end), 'strand': strand}` as built by
`gwrpmatcher`/`gpatmatcher` (src/smof.py:1625,1634). -/
structure MatchD where
  pos : Nat × Nat
  strand : Char
deriving DecidableEq, Repr

/-- The Python value returned by a compiled matcher: the existence matchers
return `bool` (or, for both-strand search, the `int` sum of two `bool`s);
the enumerating matchers return a list of match dictionaries. -/
inductive PyVal where
  | vBool : Bool → PyVal
  | vInt : Nat → PyVal
  | vList : List MatchD → PyVal
deriving DecidableEq, Repr

/-- Python truthiness of a matcher result, as tested by
`if (m and not args.invert_match) ...` (src/smof.py:1733,1750). -/
def pyTruthy : PyVal → Bool
  | PyVal.vBool b => b
  | PyVal.vInt n => n != 0
  | PyVal.vList l => !l.isEmpty

/-- The semantics of one compiled pattern: its `re.finditer` on a text,
returning the non-overlapping match spans `(m.start(), m.end())` in order.
The regex engine itself is external library code and is abstracted as a
function. -/
abbrev PatFn : Type := List Char → List (Nat × Nat)

/-- The semantics of a compiled wrapper regex with one capture group: its
`re.finditer`, returning `(m.start(), m.end(), m.group(1))` for each match. -/
abbrev WrapFn : Type := List Char → List (Nat × Nat × List Char)

/-- `swrpmatcher` (src/smof.py:1607-1611): existence of a wrapper match whose
first capture group is a member of the pattern set. -/
def swrpmatcher (wfi : WrapFn) (wpat : List (List Char)) (text : List Char) : Bool :=
  (wfi text).any (fun m => wpat.contains m.2.2)

/-- `spatmatcher` (src/smof.py:1614-1618): `re.search` succeeds for some
pattern, i.e. some pattern has at least one match. -/
def spatmatcher (pats : List PatFn) (text : List Char) : Bool :=
  pats.any (fun fi => !(fi text).isEmpty)

/-- `gwrpmatcher` (src/smof.py:1621-1627): positions of wrapper matches whose
first capture group is in the pattern set. -/
def gwrpmatcher (wfi : WrapFn) (wpat : List (List Char)) (text : List Char) (strand : Char) :
    List MatchD :=
  ((wfi text).filter (fun m => wpat.contains m.2.2)).map (fun m => ⟨(m.1, m.2.1), strand⟩)

/-- `gpatmatcher` (src/smof.py:1630-1636): all match positions of all patterns. -/
def gpatmatcher (pats : List PatFn) (text : List Char) (strand : Char) : List MatchD :=
  (pats.map (fun fi => (fi text).map (fun ab => (⟨ab, strand⟩ : MatchD)))).flatten

/-- The coordinate translation of the `rev` helper (src/smof.py:1657):
`d['pos'] = (len(text) - b, len(text) - a)`. -/
def revD (L : Nat) (d : MatchD) : MatchD :=
  ⟨(L - d.pos.2, L - d.pos.1), d.strand⟩

/-- `Grep._create_matcher` (src/smof.py:1605-1670), applied to a text: the
full dispatch over output mode (`gff`/`count_matches`/`color` select the
enumerating matchers), wrapper presence, and strand flags.  The misspelled
name `'swrmatcher'` in the tuple at line 1644 is reproduced exactly: because
of it, `swrpmatcher` is routed to the dict-iterating `rev` branch, which
raises `TypeError` when the matcher returns a `bool`. -/
def create_matcher (gff countMatches color reverseOnly bothStrands : Bool)
    (pats : List PatFn) (wrapper : Option (WrapFn × List (List Char)))
    (text : List Char) : Except String PyVal :=
  let useG := gff || countMatches || color
  let mname : String :=
    if useG then (if wrapper.isSome then "gwrpmatcher" else "gpatmatcher")
    else (if wrapper.isSome then "swrpmatcher" else "spatmatcher")
  let base : List Char → Char → PyVal := fun t strand =>
    match wrapper with
    | some w =>
      if useG then PyVal.vList (gwrpmatcher w.1 w.2 t strand)
      else PyVal.vBool (swrpmatcher w.1 w.2 t)
    | none =>
      if useG then PyVal.vList (gpatmatcher pats t strand)
      else PyVal.vBool (spatmatcher pats t)
  if reverseOnly || bothStrands then
    if mname = "swrmatcher" || mname = "spatmatcher" then
      if reverseOnly then Except.ok (base (FSeq.getrevcomp text) '.')
      else
        match base text '.', base (FSeq.getrevcomp text) '.' with
        | PyVal.vBool b1, PyVal.vBool b2 =>
          Except.ok (PyVal.vInt ((if b1 then 1 else 0) + (if b2 then 1 else 0)))
        | _, _ => Except.error "TypeError: unsupported operand"
    else
      let rev : Except String (List MatchD) :=
        match base (FSeq.getrevcomp text) '-' with
        | PyVal.vList l => Except.ok (l.map (revD text.length))
        | _ => Except.error "TypeError: argument of type bool is not iterable"
      if reverseOnly then
        match rev with
        | Except.ok l => Except.ok (PyVal.vList l)
        | Except.error e => Except.error e
      else
        match rev with
        | Except.error e => Except.error e
        | Except.ok r =>
          match base text '.' with
          | PyVal.vList f => Except.ok (PyVal.vList (f ++ r))
          | _ => Except.error "TypeError: can only concatenate list"
  else Except.ok (base text '.')

/-- Fuel-driven worker for `fiLit`; fuel `text.length + 1` always suffices
for a non-empty pattern. -/
def fiLitAux (p : List Char) : Nat → Nat → List Char → List (Nat × Nat)
  | 0, _, _ => []
  | fuel + 1, i, t =>
    if p ≠ [] && t.take p.length == p then
      (i, i + p.length) :: fiLitAux p fuel (i + p.length) (t.drop p.length)
    else
      match t with
      | [] => []
      | _ :: rest => fiLitAux p fuel (i + 1) rest

/-- Model of Python's `re.finditer` for an escaped non-empty literal
pattern: the non-overlapping occurrences, scanned left to right.  With
`caseSensitive = false` both pattern and text are uppercased, modelling the
`re.IGNORECASE` flag (src/smof.py:1768) on ASCII input. -/
def fiLit (caseSensitive : Bool) (p text : List Char) : List (Nat × Nat) :=
  let p' := if caseSensitive then p else p.map Char.toUpper
  let t' := if caseSensitive then text else text.map Char.toUpper
  fiLitAux p' (t'.length + 1) 0 t'

/-- Length of the leading run of `c`. -/
def leadRun (c : Char) : List Char → Nat
  | [] => 0
  | x :: rest => if x = c then leadRun c rest + 1 else 0

/-- Fuel-driven worker for `fiStar`. -/
def fiStarAux (c : Char) : Nat → Nat → List Char → List (Nat × Nat)
  | 0, _, _ => []
  | fuel + 1, i, t =>
    let k := leadRun c t
    if k > 0 then (i, i + k) :: fiStarAux c fuel (i + k) (t.drop k)
    else
      (i, i) ::
        match t with
        | [] => []
        | _ :: rest => fiStarAux c fuel (i + 1) rest

/-- Model of Python's `re.finditer` for the regular expression `c*` (a
character Kleene star): a greedy match at each scan position, including the
zero-width matches Python yields at positions where `c` does not occur and
at the end of the text. -/
def fiStar (c : Char) (text : List Char) : List (Nat × Nat) :=
  fiStarAux c (text.length + 1) 0 text

/-- Model of `re.finditer` for a wrapper regex that is a single literal group
`(p)` on same-case input: each occurrence of `p`, with `p` as the capture. -/
def fiWrapLit (p : List Char) (text : List Char) : List (Nat × Nat × List Char) :=
  (fiLit true p text).map (fun ab => (ab.1, ab.2, p))

/-- The `grep` option fields consulted by `_process_arguments`,
`_get_pattern`, `_create_matcher` and `_makegen` (src/smof.py:1576-1781).
`patterns` merges the positional patterns and the pattern file;
`wrap` holds the wrapper regex when `-w` is given. -/
structure GrepArgs where
  patterns : List (List Char)
  wrap : Option (List Char)
  invert_match : Bool
  count : Bool
  count_matches : Bool
  case_sensitive : Bool
  ambiguous_nucl : Bool
  perl_regexp : Bool
  gff : Bool
  color : Bool
  both_strands : Bool
  reverse_only : Bool
  match_sequence : Bool
deriving DecidableEq, Repr

/-- `Grep._process_arguments` (src/smof.py:1576-1603): rejects incompatible
option pairs, then normalizes flags.  Note the Python precedence of
`args.gff or args.count_matches and args.color` at line 1596. -/
def process_arguments (a : GrepArgs) : Except String GrepArgs :=
  if a.count_matches && a.invert_match then
    Except.error "--count-matches argument is incompatible with --invert-matches"
  else if a.wrap.isSome && a.perl_regexp then
    Except.error "PATTERNS found in --wrap captures must be literal (-P option and -w are incompatible)"
  else
    let a := if a.ambiguous_nucl then { a with perl_regexp := true } else a
    let a := if a.gff || a.ambiguous_nucl then { a with match_sequence := true } else a
    let a := if a.gff || (a.count_matches && a.color) then { a with color := false } else a
    let a := if a.gff then { a with count := false, count_matches := false } else a
    Except.ok a

/-- `Maps.DNA_AMB` (src/smof.py:84-96), in insertion order. -/
def DNA_AMB_MAP : List (Char × List Char) :=
  [('R', "AG".toList), ('Y', "CT".toList), ('S', "GC".toList), ('W', "AT".toList),
   ('K', "GT".toList), ('M', "AC".toList), ('B', "CGT".toList), ('D', "AGT".toList),
   ('H', "ACT".toList), ('V', "ACG".toList), ('N', "ACGT".toList)]

/-- One step `re.sub(k, '[v]', p)` of the ambiguity rewrite (src/smof.py:1684)
for a single-character pattern `k`: textual substitution of every `k`. -/
def ambSub (k : Char) (v : List Char) (p : List Char) : List Char :=
  (p.map (fun c => if c = k then '[' :: (v ++ [']']) else [c])).flatten

/-- The `--ambiguous-nucl` rewrite loop (src/smof.py:1679-1686): substitute
each IUPAC code, key by key in dictionary order.  No replacement string
contains a key, so the sequential passes do not interfere. -/
def ambExpand (p : List Char) : List Char :=
  DNA_AMB_MAP.foldl (fun q kv => ambSub kv.1 kv.2 q) p

/-- `re.escape` applied to literal patterns (src/smof.py:1695): a backslash
before every non-alphanumeric character. -/
def reEscape (p : List Char) : List Char :=
  (p.map (fun c => if c.isAlphanum then [c] else ['\\', c])).flatten

/-- `Grep._get_pattern` (src/smof.py:1672-1697): collect patterns, expand
ambiguity codes, reject an empty pattern set, escape literals. -/
def get_pattern (a : GrepArgs) : Except String (List (List Char)) :=
  let pat := if a.ambiguous_nucl then a.patterns.map ambExpand else a.patterns
  if pat.isEmpty then Except.error "Please provide a pattern"
  else Except.ok (if !a.perl_regexp && a.wrap.isNone then pat.map reEscape else pat)

/-- `Grep.generator` (src/smof.py:1762-1781) restricted to the filter
outcome of each record: process the arguments and compile the patterns
(both before any record is consumed), then report for every record the
Python truthiness of its matcher result combined with `invert_match`
(src/smof.py:1733,1750).  The regex engine is abstracted: `engine` compiles
a pattern string (given the case-sensitivity flag) into its `finditer`
semantics, `wengine` the wrapper regex into its group-1 `finditer`. -/
def grepRun (engine : Bool → List Char → PatFn) (wengine : Bool → List Char → WrapFn)
    (a : GrepArgs) (records : List FSeq) : Except String (List Bool) := do
  let a ← process_arguments a
  let pat ← get_pattern a
  let wrapper := a.wrap.map (fun w => (wengine a.case_sensitive w, pat))
  let pats := pat.map (fun p => engine a.case_sensitive p)
  records.mapM (fun r => do
    let text := if a.match_sequence then r.seq else r.header
    let m ← create_matcher a.gff a.count_matches a.color a.reverse_only a.both_strands
      pats wrapper text
    Except.ok (pyTruthy m != a.invert_match))

/-! ### Supporting lemmas -/

theorem dictIncr_eq_none {d : Dict} {k : String} (n : Nat) (h : dictGet d k = none) :
    dictIncr d k n = none := by
  induction d with
  | nil => rfl
  | cons hd tl ih =>
    obtain ⟨k', v⟩ := hd
    by_cases hc : k' = k
    · subst hc; simp [dictGet] at h
    · simp only [dictGet, hc, if_false] at h
      simp [dictIncr, hc, ih h]

theorem handle_gaps_ok {fd : FileDescription} {counts : List Char}
    {pr : FileDescription × Bool} (hkey : dictGet fd.ufeat "ngapped" = none)
    (h : fd.handle_gaps counts = Except.ok pr) : pr = (fd, false) := by
  unfold FileDescription.handle_gaps at h
  split at h
  · rw [dictIncr_eq_none 1 hkey] at h
    exact absurd h (by simp)
  · injection h with h'
    exact h'.symm

theorem exbind_ok {α β : Type} (a : α) (f : α → Except String β) :
    (Except.ok a >>= f) = f a := rfl

theorem exbind_error {α β : Type} (e : String) (f : α → Except String β) :
    ((Except.error e : Except String α) >>= f) = Except.error e := rfl

theorem bind_pair_ok {E : Except String FileDescription} {s : FSeq}
    {res : FileDescription × FSeq}
    (h : (E >>= fun fd => Except.ok (fd, s)) = Except.ok res) : res.2 = s := by
  cases E with
  | error e => rw [exbind_error] at h; exact absurd h (by simp)
  | ok fd =>
    rw [exbind_ok] at h
    injection h with h'
    rw [← h']

/-! ### Claim theorems: the classifier -/

/-- C1: the claim that classification never fails is violated by the code:
a record containing a gap character raises `KeyError` (line 398 increments
`ufeat['ngapped']` but the key created at line 321 is `gapped`), and a
nucleotide record of length at most 3 raises `IndexError` (line 367 indexes
`codons_1[0]` on an empty codon list).  Only the third part of the claim
holds: content fitting no alphabet does degrade to `illegal`. -/
theorem add_seq_fails_on_gapped_and_short_records :
    FileDescription.add_seq initFD ⟨"h".toList, "A-G".toList⟩ =
      Except.error "KeyError: ngapped" ∧
    FileDescription.add_seq initFD ⟨"h".toList, "ACG".toList⟩ =
      Except.error "IndexError: list index out of range" ∧
    (FileDescription.add_seq initFD ⟨"h".toList, "EO".toList⟩).map
      (fun p => dictGet p.1.ntype "illegal") = Except.ok (some 1) :=
  ⟨by decide, by decide, by decide⟩

/-- C2: for `"ATGAAATAG"` the code computes `tstop = true` (the final three
characters `TAG` are a stop codon) and `internal_stop = false`, exactly as
the claim states, but rule 1 at line 372 tests `stop_1 = codons_1[-1] in
STOP` — the second-to-last codon `AAA` — instead of the final three bases,
so the record is counted under `start|coding`, not `start|coding|stop`. -/
theorem add_seq_ATGAAATAG_counted_as_start_coding :
    (FileDescription.add_seq initFD ⟨"h".toList, "ATGAAATAG".toList⟩).map
      (fun p => (dictGet p.1.nfeat "start|coding", dictGet p.1.nfeat "start|coding|stop")) =
      Except.ok (some 1, some 0) ∧
    tstopOf "ATGAAATAG".toList = true ∧
    codonsOf "ATGAAATAG".toList = ["ATG".toList, "AAA".toList] ∧
    (codonsOf "ATGAAATAG".toList).dropLast.any (fun c => STOP.contains c) = false :=
  ⟨by decide, by decide, by decide, by decide⟩

/-- C3: for `"ATGTAGCCC"` the code computes `internal_stop_1 = false` (line
369 scans `codons_1[:-1] = ["ATG"]`, excluding the second-to-last codon
`TAG` — the claim says a stop codon strictly before the final codon makes
`internal_stop` true) and `stop_1 = true` (`codons_1[-1] = "TAG"`), so rule
1 fires and the record is counted under `start|coding|stop`, not the
claimed `start|nonsense`. -/
theorem add_seq_ATGTAGCCC_counted_as_start_coding_stop :
    (FileDescription.add_seq initFD ⟨"h".toList, "ATGTAGCCC".toList⟩).map
      (fun p => (dictGet p.1.nfeat "start|coding|stop", dictGet p.1.nfeat "start|nonsense")) =
      Except.ok (some 1, some 0) ∧
    tstopOf "ATGTAGCCC".toList = false ∧
    codonsOf "ATGTAGCCC".toList = ["ATG".toList, "TAG".toList] ∧
    (codonsOf "ATGTAGCCC".toList).dropLast.any (fun c => STOP.contains c) = false :=
  ⟨by decide, by decide, by decide, by decide⟩

/-- C4: whenever `add_seq` returns (rather than raising), the record it was
given comes back byte-for-byte unchanged, header and residues alike.  The
hypothesis `dictGet fd.ufeat "ngapped" = none` holds for the program's real
accumulator states (the key is `gapped`); under it the gap branch — the
only code path that mutates the record, via the in-place `seq.ungap()` at
line 340 — always raises before reaching the mutation. -/
theorem add_seq_preserves_record (fd : FileDescription) (s : FSeq)
    (res : FileDescription × FSeq) (hkey : dictGet fd.ufeat "ngapped" = none)
    (hok : fd.add_seq s = Except.ok res) : res.2 = s := by
  unfold FileDescription.add_seq at hok
  cases hg : FileDescription.handle_gaps
      { fd with seqs := s.seq :: fd.seqs, headers := s.header :: fd.headers } s.seq with
  | error e => rw [hg, exbind_error] at hok; exact absurd hok (by simp)
  | ok pr =>
    have hpr : pr = ({ fd with seqs := s.seq :: fd.seqs, headers := s.header :: fd.headers },
        false) := handle_gaps_ok hkey hg
    rw [hg, exbind_ok, hpr] at hok
    simp only [Bool.false_eq_true, if_false] at hok
    cases hc : FileDescription.handle_case
        { fd with seqs := s.seq :: fd.seqs, headers := s.header :: fd.headers } s.seq with
    | error e => rw [hc, exbind_error] at hok; exact absurd hok (by simp)
    | ok pc =>
      obtain ⟨fd2, scase⟩ := pc
      rw [hc, exbind_ok] at hok
      cases ht : FileDescription.handle_type fd2
          (if pyIn scase.toList "upper".toList then s.seq else counterCaser s.seq) with
      | error e => rw [ht, exbind_error] at hok; exact absurd hok (by simp)
      | ok pt =>
        obtain ⟨fd3, stype⟩ := pt
        rw [ht, exbind_ok] at hok
        split at hok
        · exact bind_pair_ok hok
        · split at hok
          · exact bind_pair_ok hok
          · exact bind_pair_ok hok

/-- Witness for C4 at the real initial state and an ungapped DNA record. -/
theorem add_seq_preserves_record_witness :
    dictGet initFD.ufeat "ngapped" = none ∧
    (FileDescription.add_seq initFD ⟨"h".toList, "ACGT".toList⟩).map (fun p => p.2) =
      Except.ok (⟨"h".toList, "ACGT".toList⟩ : FSeq) := by
  refine ⟨by decide, ?_⟩
  cases hok : FileDescription.add_seq initFD ⟨"h".toList, "ACGT".toList⟩ with
  | error e =>
    have hisok : (FileDescription.add_seq initFD ⟨"h".toList, "ACGT".toList⟩).isOk = true := by
      decide
    rw [hok] at hisok
    exact absurd hisok (by simp [Except.isOk, Except.toBool])
  | ok res =>
    have h2 := add_seq_preserves_record initFD ⟨"h".toList, "ACGT".toList⟩ res (by decide) hok
    simp [Except.map, h2]

/-! ### Claim theorems: reverse complement -/

theorem getrevcomp_length (s : List Char) : (FSeq.getrevcomp s).length = s.length := by
  simp [FSeq.getrevcomp]

theorem getrevcomp_get? (s : List Char) (j : Nat) (hj : j < s.length) :
    (FSeq.getrevcomp s).get? j = (s.get? (s.length - 1 - j)).map revcompChar := by
  have hj' : j < s.reverse.length := by simpa using hj
  simp only [FSeq.getrevcomp, List.get?_eq_getElem?, List.getElem?_map]
  rw [List.getElem?_reverse hj]

/-- C5 counterexample: in the text `"AU"` the character `'U'` sits at index
1, whose mirrored position in the reverse complement is index 0; the claim
says an `'A'` must appear there, but `revcomp_translator` has no entry for
`U`, so the reverse complement `"UT"` carries `'U'` unchanged. -/
theorem getrevcomp_U_not_complemented :
    ¬ ((FSeq.getrevcomp "AU".toList).get? 0 = some 'A') := by decide

/-- C5 amended: characters outside `acgtACGT` — in particular `'U'` and
`'u'` — are left unchanged by the translation, so a text with `'U'` at
index `i` has `'U'` (not `'A'`) at the mirrored position `L - 1 - i` of the
reverse complement, and likewise for `'u'`. -/
theorem getrevcomp_U_unchanged (s : List Char) (i : Nat) (hi : i < s.length)
    (hu : s.get? i = some 'U' ∨ s.get? i = some 'u') :
    (FSeq.getrevcomp s).get? (s.length - 1 - i) = s.get? i := by
  have hj : s.length - 1 - i < s.length := by omega
  rw [getrevcomp_get? s (s.length - 1 - i) hj]
  have hidx : s.length - 1 - (s.length - 1 - i) = i := by omega
  rw [hidx]
  rcases hu with h | h <;> rw [h] <;> rfl

/-- Witness for C5 amended at text `"AU"`, `i = 1`. -/
theorem getrevcomp_U_unchanged_witness :
    (1 < ("AU".toList).length ∧ ("AU".toList).get? 1 = some 'U') ∧
    (FSeq.getrevcomp "AU".toList).get? ("AU".toList.length - 1 - 1) = ("AU".toList).get? 1 :=
  ⟨⟨by decide, by decide⟩,
    getrevcomp_U_unchanged "AU".toList 1 (by decide) (Or.inl (by decide))⟩

theorem revcompChar_invol (c : Char)
    (h : c ∈ [ 'A', 'C', 'G', 'T', 'a', 'c', 'g', 't' ]) :
    revcompChar (revcompChar c) = c := by
  simp only [List.mem_cons, List.not_mem_nil, or_false] at h
  rcases h with rfl | rfl | rfl | rfl | rfl | rfl | rfl | rfl <;> rfl

theorem map_revcomp_twice (l : List Char)
    (h : ∀ c ∈ l, revcompChar (revcompChar c) = c) :
    (l.map revcompChar).map revcompChar = l := by
  induction l with
  | nil => rfl
  | cons c t ih =>
    simp only [List.map_cons]
    rw [h c (List.mem_cons_self c t), ih (fun x hx => h x (List.mem_cons_of_mem c hx))]

/-- C10: `getrevcomp` is an involution on strings over `{A,C,G,T,a,c,g,t}`. -/
theorem getrevcomp_involution (s : List Char)
    (h : ∀ c ∈ s, c ∈ [ 'A', 'C', 'G', 'T', 'a', 'c', 'g', 't' ]) :
    FSeq.getrevcomp (FSeq.getrevcomp s) = s := by
  unfold FSeq.getrevcomp
  simp only [List.map_reverse, List.reverse_reverse]
  exact map_revcomp_twice s (fun c hc => revcompChar_invol c (h c hc))

/-- Witness for C10 on the mixed-case string `"AcGgTt"`. -/
theorem getrevcomp_involution_witness :
    FSeq.getrevcomp (FSeq.getrevcomp "AcGgTt".toList) = "AcGgTt".toList :=
  getrevcomp_involution "AcGgTt".toList (by decide)

/-! ### Claim theorems: the pattern search engine -/

/-- C6: literal pattern `GAT`, reverse strand, text `ATCAAA`: the
enumerating matcher (selected by `gff`) searches the reverse complement
`TTTGAT`, the literal engine finds exactly `(3,6)` there, and the matcher
returns exactly one interval — `(0,3)` with strand `-`. -/
theorem create_matcher_GAT_reverse :
    FSeq.getrevcomp "ATCAAA".toList = "TTTGAT".toList ∧
    fiLit false "GAT".toList "TTTGAT".toList = [(3, 6)] ∧
    create_matcher true false false true false [fiLit false "GAT".toList] none "ATCAAA".toList =
      Except.ok (PyVal.vList [⟨(0, 3), '-'⟩]) :=
  ⟨by decide, by decide, by decide⟩

/-- C7: with a wrapper pattern and reverse-strand search, the existence
matcher does not return a pass/fail outcome at all: the misspelled
`'swrmatcher'` in the name tuple at src/smof.py:1644 routes `swrpmatcher`
into the dict-iterating `rev` helper, which raises `TypeError` on the
boolean it returns — while the enumerating matcher built from the same
specification returns one interval, so the record should pass.  Shown here
for wrapper `(GAT)` with pattern set `{GAT}` on text `ATCAAA`. -/
theorem create_matcher_wrap_reverse_diverges :
    create_matcher false false false true false []
      (some (fiWrapLit "GAT".toList, ["GAT".toList])) "ATCAAA".toList =
      Except.error "TypeError: argument of type bool is not iterable" ∧
    create_matcher true false false true false []
      (some (fiWrapLit "GAT".toList, ["GAT".toList])) "ATCAAA".toList =
      Except.ok (PyVal.vList [⟨(0, 3), '-'⟩]) :=
  ⟨by decide, by decide⟩

/-- C8 counterexample: in regex mode a pattern may produce zero-width
matches; with the regular expression `A*` on text `"B"` (`fiStar 'A'`
models its `re.finditer`), the enumerating matcher emits the interval
`(0,0)`, which violates `start < end`. -/
theorem create_matcher_zero_width_interval :
    create_matcher true false false false false [fiStar 'A'] none "B".toList =
      Except.ok (PyVal.vList [⟨(0, 0), '.'⟩, ⟨(1, 1), '.'⟩]) ∧
    ¬ ((⟨(0, 0), '.'⟩ : MatchD).pos.1 < (⟨(0, 0), '.'⟩ : MatchD).pos.2) :=
  ⟨by decide, by decide⟩

theorem gpatmatcher_le {pats : List PatFn} {t : List Char} {strand : Char}
    (hp : ∀ fi ∈ pats, ∀ u a b, (a, b) ∈ fi u → a ≤ b) :
    ∀ d ∈ gpatmatcher pats t strand, d.pos.1 ≤ d.pos.2 := by
  intro d hd
  unfold gpatmatcher at hd
  rw [List.mem_flatten] at hd
  obtain ⟨l, hl, hdl⟩ := hd
  rw [List.mem_map] at hl
  obtain ⟨fi, hfi, rfl⟩ := hl
  rw [List.mem_map] at hdl
  obtain ⟨⟨a, b⟩, hab, rfl⟩ := hdl
  exact hp fi hfi t a b hab

theorem gwrpmatcher_le {wfi : WrapFn} {wpat : List (List Char)} {t : List Char} {strand : Char}
    (hw : ∀ u m, m ∈ wfi u → m.1 ≤ m.2.1) :
    ∀ d ∈ gwrpmatcher wfi wpat t strand, d.pos.1 ≤ d.pos.2 := by
  intro d hd
  unfold gwrpmatcher at hd
  rw [List.mem_map] at hd
  obtain ⟨m, hm, rfl⟩ := hd
  exact hw t m (List.mem_filter.mp hm).1

theorem revD_le {L : Nat} {d : MatchD} (h : d.pos.1 ≤ d.pos.2) :
    (revD L d).pos.1 ≤ (revD L d).pos.2 :=
  Nat.sub_le_sub_left h L

/-- C8 amended: every interval any matcher returns satisfies
`start ≤ end` (not `start < end`), provided the primitive regex engines
only produce spans with `a ≤ b` — which `re.finditer` guarantees, with
`a = b` exactly at zero-width matches.  The reverse-strand translation
`(L-b, L-a)` preserves the inequality. -/
theorem create_matcher_start_le_end (gff cm color ro bs : Bool) (pats : List PatFn)
    (wrapper : Option (WrapFn × List (List Char))) (text : List Char) (L : List MatchD)
    (hp : ∀ fi ∈ pats, ∀ u a b, (a, b) ∈ fi u → a ≤ b)
    (hw : ∀ w, wrapper = some w → ∀ u m, m ∈ w.1 u → m.1 ≤ m.2.1)
    (hok : create_matcher gff cm color ro bs pats wrapper text = Except.ok (PyVal.vList L)) :
    ∀ d ∈ L, d.pos.1 ≤ d.pos.2 := by
  intro d hd
  have hnm1 : (decide ("gpatmatcher" = "swrmatcher") || decide ("gpatmatcher" = "spatmatcher"))
      = false := by decide
  have hnm2 : (decide ("spatmatcher" = "swrmatcher") || decide ("spatmatcher" = "spatmatcher"))
      = true := by decide
  have hnm3 : (decide ("gwrpmatcher" = "swrmatcher") || decide ("gwrpmatcher" = "spatmatcher"))
      = false := by decide
  have hnm4 : (decide ("swrpmatcher" = "swrmatcher") || decide ("swrpmatcher" = "spatmatcher"))
      = false := by decide
  cases wrapper with
  | none =>
    cases gff <;> cases cm <;> cases color <;> cases ro <;> cases bs <;>
      simp only [create_matcher, Option.isSome_none, hnm1, hnm2, Bool.false_eq_true,
        Bool.true_or, Bool.or_true, Bool.false_or, Bool.or_false, Bool.or_self,
        eq_self_iff_true, if_true, if_false, Bool.true_eq_false, ite_true, ite_false] at hok <;>
      first
      | exact Except.noConfusion hok
      | (injection hok with hok
         exact PyVal.noConfusion hok)
      | (injection hok with hok
         injection hok with hok
         subst hok
         first
         | exact gpatmatcher_le hp d hd
         | (rw [List.mem_append] at hd
            rcases hd with hd | hd
            · exact gpatmatcher_le hp d hd
            · rw [List.mem_map] at hd
              obtain ⟨d', hd', rfl⟩ := hd
              exact revD_le (gpatmatcher_le hp d' hd'))
         | (rw [List.mem_map] at hd
            obtain ⟨d', hd', rfl⟩ := hd
            exact revD_le (gpatmatcher_le hp d' hd')))
  | some w =>
    have hw' : ∀ u m, m ∈ w.1 u → m.1 ≤ m.2.1 := hw w rfl
    cases gff <;> cases cm <;> cases color <;> cases ro <;> cases bs <;>
      simp only [create_matcher, Option.isSome_some, hnm3, hnm4, Bool.false_eq_true,
        Bool.true_or, Bool.or_true, Bool.false_or, Bool.or_false, Bool.or_self,
        eq_self_iff_true, if_true, if_false, Bool.true_eq_false, ite_true, ite_false] at hok <;>
      first
      | exact Except.noConfusion hok
      | (injection hok with hok
         exact PyVal.noConfusion hok)
      | (injection hok with hok
         injection hok with hok
         subst hok
         first
         | exact gwrpmatcher_le hw' d hd
         | (rw [List.mem_append] at hd
            rcases hd with hd | hd
            · exact gwrpmatcher_le hw' d hd
            · rw [List.mem_map] at hd
              obtain ⟨d', hd', rfl⟩ := hd
              exact revD_le (gwrpmatcher_le hw' d' hd'))
         | (rw [List.mem_map] at hd
            obtain ⟨d', hd', rfl⟩ := hd
            exact revD_le (gwrpmatcher_le hw' d' hd')))

theorem fiLitAux_le (p : List Char) :
    ∀ (fuel i : Nat) (t : List Char) (a b : Nat), (a, b) ∈ fiLitAux p fuel i t → a ≤ b := by
  intro fuel
  induction fuel with
  | zero => intro i t a b h; simp [fiLitAux] at h
  | succ n ih =>
    intro i t a b h
    unfold fiLitAux at h
    split at h
    · rw [List.mem_cons] at h
      rcases h with h | h
      · injection h with h1 h2
        subst h1; subst h2
        exact Nat.le_add_right _ _
      · exact ih _ _ _ _ h
    · cases t with
      | nil => simp at h
      | cons c rest => exact ih _ _ _ _ h

theorem fiLit_le (cs : Bool) (p t : List Char) (a b : Nat) (h : (a, b) ∈ fiLit cs p t) :
    a ≤ b := by
  unfold fiLit at h
  exact fiLitAux_le _ _ _ _ _ _ h

/-- Witness for C8 amended: literal pattern `A` (whose matches are bounded
spans, by `fiLit_le`) on text `"BA"`, forward search. -/
theorem create_matcher_start_le_end_witness :
    create_matcher true false false false false [fiLit true [ 'A' ]] none "BA".toList =
      Except.ok (PyVal.vList [⟨(1, 2), '.'⟩]) ∧
    (⟨(1, 2), '.'⟩ : MatchD).pos.1 ≤ (⟨(1, 2), '.'⟩ : MatchD).pos.2 := by
  refine ⟨by decide, ?_⟩
  exact create_matcher_start_le_end true false false false false [fiLit true [ 'A' ]]
    none "BA".toList [⟨(1, 2), '.'⟩]
    (by
      intro fi hfi u a b hab
      rw [List.mem_cons] at hfi
      rcases hfi with rfl | hfi
      · exact fiLit_le true [ 'A' ] u a b hab
      · simp at hfi)
    (by intro w hwc; cases hwc)
    (by decide) ⟨(1, 2), '.'⟩ (by decide)

theorem process_arguments_patterns {a a' : GrepArgs}
    (h : process_arguments a = Except.ok a') : a'.patterns = a.patterns := by
  unfold process_arguments at h
  by_cases c1 : (a.count_matches && a.invert_match) = true
  · rw [if_pos c1] at h; exact absurd h (by simp)
  · rw [if_neg c1] at h
    by_cases c2 : (a.wrap.isSome && a.perl_regexp) = true
    · rw [if_pos c2] at h; exact absurd h (by simp)
    · rw [if_neg c2] at h
      injection h with h'
      subst h'
      simp only [apply_ite GrepArgs.patterns, ite_self]

theorem process_arguments_error_cases {a : GrepArgs} {e : String}
    (h : process_arguments a = Except.error e) :
    (a.count_matches && a.invert_match) = true ∨ (a.wrap.isSome && a.perl_regexp) = true := by
  unfold process_arguments at h
  by_cases c1 : (a.count_matches && a.invert_match) = true
  · exact Or.inl c1
  · rw [if_neg c1] at h
    by_cases c2 : (a.wrap.isSome && a.perl_regexp) = true
    · exact Or.inr c2
    · rw [if_neg c2] at h
      exact absurd h (by simp)

theorem process_arguments_count_invert {a : GrepArgs}
    (h1 : a.count_matches = true) (h2 : a.invert_match = true) :
    process_arguments a =
      Except.error "--count-matches argument is incompatible with --invert-matches" := by
  unfold process_arguments
  rw [h1, h2]
  rfl

theorem get_pattern_empty {a : GrepArgs} (h : a.patterns = []) :
    get_pattern a = Except.error "Please provide a pattern" := by
  unfold get_pattern
  cases hA : a.ambiguous_nucl <;> simp [h]

theorem grepRun_of_pa_error {engine : Bool → List Char → PatFn}
    {wengine : Bool → List Char → WrapFn} {a : GrepArgs} {records : List FSeq} {e : String}
    (h : process_arguments a = Except.error e) :
    grepRun engine wengine a records = Except.error e := by
  unfold grepRun
  rw [h]
  rfl

theorem grepRun_of_pat_error {engine : Bool → List Char → PatFn}
    {wengine : Bool → List Char → WrapFn} {a a' : GrepArgs} {records : List FSeq} {e : String}
    (hpa : process_arguments a = Except.ok a') (hgp : get_pattern a' = Except.error e) :
    grepRun engine wengine a records = Except.error e := by
  unfold grepRun
  simp only [hpa, exbind_ok]
  rw [hgp]
  rfl

/-- C9: invalid pattern specifications abort the run at compile time.  The
`count_matches`/`invert` conflict is rejected by `_process_arguments` with
its diagnostic; an empty pattern set is rejected by `_get_pattern` with its
diagnostic (when no earlier configuration error fires first); and in every
such case the run's result does not depend on the record stream at all —
no per-record output is produced, and the failure cannot occur mid-stream. -/
theorem grep_rejects_invalid_spec_before_records
    (engine : Bool → List Char → PatFn) (wengine : Bool → List Char → WrapFn)
    (a : GrepArgs) (records records' : List FSeq) :
    (a.count_matches = true ∧ a.invert_match = true →
      grepRun engine wengine a records =
        Except.error "--count-matches argument is incompatible with --invert-matches") ∧
    (a.patterns = [] → ¬(a.count_matches = true ∧ a.invert_match = true) →
      ¬(a.wrap.isSome = true ∧ a.perl_regexp = true) →
      grepRun engine wengine a records = Except.error "Please provide a pattern") ∧
    ((a.count_matches = true ∧ a.invert_match = true) ∨ a.patterns = [] →
      grepRun engine wengine a records = grepRun engine wengine a records') := by
  refine ⟨?_, ?_, ?_⟩
  · rintro ⟨h1, h2⟩
    exact grepRun_of_pa_error (process_arguments_count_invert h1 h2)
  · intro hpat hci hwp
    cases hE : process_arguments a with
    | error e =>
      rcases process_arguments_error_cases hE with hc | hc
      · rw [Bool.and_eq_true] at hc; exact absurd hc hci
      · rw [Bool.and_eq_true] at hc; exact absurd hc hwp
    | ok a' =>
      exact grepRun_of_pat_error hE
        (get_pattern_empty (by rw [process_arguments_patterns hE, hpat]))
  · intro h
    have hrun : ∀ records0 : List FSeq, ∃ e, grepRun engine wengine a records0 = Except.error e ∧
        (∀ records1 : List FSeq, grepRun engine wengine a records1 = Except.error e) := by
      intro records0
      cases hE : process_arguments a with
      | error e =>
        exact ⟨e, grepRun_of_pa_error hE, fun _ => grepRun_of_pa_error hE⟩
      | ok a' =>
        rcases h with ⟨h1, h2⟩ | hpat
        · exact absurd (process_arguments_count_invert h1 h2) (by rw [hE]; simp)
        · have hgp := get_pattern_empty (a := a')
            (by rw [process_arguments_patterns hE, hpat])
          exact ⟨_, grepRun_of_pat_error hE hgp, fun _ => grepRun_of_pat_error hE hgp⟩
    obtain ⟨e, he, hall⟩ := hrun records
    rw [he, hall records']

/-- Witness for C9: the `count_matches`/`invert` conflict and the empty
pattern set are both rejected with their diagnostics on a non-empty record
stream (dummy regex engines, since compilation fails before matching). -/
theorem grep_rejects_invalid_spec_before_records_witness :
    grepRun (fun _ _ _ => []) (fun _ _ _ => [])
      { patterns := ["GAT".toList], wrap := none, invert_match := true, count := false,
        count_matches := true, case_sensitive := false, ambiguous_nucl := false,
        perl_regexp := false, gff := false, color := false, both_strands := false,
        reverse_only := false, match_sequence := true }
      [⟨"h".toList, "ATG".toList⟩] =
      Except.error "--count-matches argument is incompatible with --invert-matches" ∧
    grepRun (fun _ _ _ => []) (fun _ _ _ => [])
      { patterns := [], wrap := none, invert_match := false, count := false,
        count_matches := false, case_sensitive := false, ambiguous_nucl := false,
        perl_regexp := false, gff := false, color := false, both_strands := false,
        reverse_only := false, match_sequence := true }
      [⟨"h".toList, "ATG".toList⟩] =
      Except.error "Please provide a pattern" :=
  ⟨(grep_rejects_invalid_spec_before_records _ _ _ _ []).1 ⟨rfl, rfl⟩,
    (grep_rejects_invalid_spec_before_records _ _ _ _ []).2.1 rfl
      (by simp) (by simp)⟩

end Smof
